import Mathlib

/-!
Verification development for the Inbox Buddy frontend (`src/frontend/main.js`).

The file shallowly embeds the client logic of `main.js` in Lean:

* JavaScript/JSON values are modelled by the mutual inductive `JSVal`
  (numbers are modelled as integers plus an explicit `nan` constructor;
  the repository's client only ever inspects numbers for truthiness,
  strict equality with `1`, and decimal printing, all of which the
  integer model captures).
* DOM / network side effects are made explicit: each handler returns the
  list of effects (`Eff`) it performs — chat bubbles appended to the chat
  log, invocations of `loadEmails`, browser notifications, console
  warnings and HTTP requests — together with its successor state.
* `fetch` responses are passed in as explicit `Except`/list arguments,
  since the server is outside this repository's `src/`.
-/

namespace InboxBuddy

/-! ## JavaScript value model -/

mutual

/-- Model of a JavaScript value as manipulated by `main.js`.  Numbers are
modelled as integers (`num`) together with an explicit `nan` value; the
client code never relies on fractional numbers. -/
inductive JSVal where
  | null
  | undefined
  | bool (b : Bool)
  | num (n : Int)
  | nan
  | str (s : String)
  | arr (elems : JSArr)
  | obj (fields : JSObj)
deriving DecidableEq, Repr

/-- Spine of a JavaScript array (kept as its own inductive so that all
recursions over `JSVal` are structural). -/
inductive JSArr where
  | nil
  | cons (hd : JSVal) (tl : JSArr)
deriving DecidableEq, Repr

/-- Spine of a JavaScript object: an association list of fields. -/
inductive JSObj where
  | nil
  | cons (key : String) (val : JSVal) (tl : JSObj)
deriving DecidableEq, Repr

end

/-- Convert an array spine to a Lean list. -/
def JSArr.toList : JSArr → List JSVal
  | .nil => []
  | .cons x t => x :: JSArr.toList t

/-- Build an array spine from a Lean list. -/
def JSArr.ofList : List JSVal → JSArr
  | [] => .nil
  | x :: t => .cons x (JSArr.ofList t)

theorem JSArr.toList_ofList (l : List JSVal) : (JSArr.ofList l).toList = l := by
  induction l with
  | nil => rfl
  | cons x t ih => simp [JSArr.ofList, JSArr.toList, ih]

/-- Property lookup on an object spine (`undefined` when absent). -/
def jsObjGet : JSObj → String → JSVal
  | .nil, _ => .undefined
  | .cons key val tl, k => if key = k then val else jsObjGet tl k

/-- Property access `v.k`.  On non-objects it yields `undefined`
(the client only performs such accesses on values it has checked are not
`null`; see the call sites below). -/
def jsGet (v : JSVal) (k : String) : JSVal :=
  match v with
  | .obj fs => jsObjGet fs k
  | _ => .undefined

/-- JavaScript truthiness. -/
def jsTruthy : JSVal → Bool
  | .null => false
  | .undefined => false
  | .bool b => b
  | .num n => n ≠ 0
  | .nan => false
  | .str s => s ≠ ""
  | .arr _ => true
  | .obj _ => true

/-- `v === t` for a string literal `t` (strict equality with a string). -/
def isTag (v : JSVal) (t : String) : Bool :=
  match v with
  | .str s => s = t
  | _ => false

/-- `v === 1` (strict equality with the number one). -/
def eqNumOne : JSVal → Bool
  | .num n => n = 1
  | _ => false

/-- Whether the value is `null` or `undefined` (the `??` test). -/
def isNullish : JSVal → Bool
  | .null => true
  | .undefined => true
  | _ => false

/-- Whether the value is `undefined` (the `!== undefined` test). -/
def isUndef : JSVal → Bool
  | .undefined => true
  | _ => false

/-- Whether the value is a string (`typeof v === "string"`). -/
def isStr : JSVal → Bool
  | .str _ => true
  | _ => false

/-- `a ?? b`: nullish coalescing. -/
def nullishD (v fallback : JSVal) : JSVal :=
  if isNullish v then fallback else v

/-- `a || b`: logical-or defaulting. -/
def jsOr (v d : JSVal) : JSVal :=
  if jsTruthy v then v else d

mutual

/-- `String(v)` conversion, as used by template literals and by
`textContent` assignment. -/
def jsToString : JSVal → String
  | .null => "null"
  | .undefined => "undefined"
  | .bool b => if b then "true" else "false"
  | .num n => toString n
  | .nan => "NaN"
  | .str s => s
  | .arr xs => arrToString xs
  | .obj _ => "[object Object]"

/-- `Array.prototype.toString`: elements joined with `,`, where `null`
and `undefined` elements print as the empty string. -/
def arrToString : JSArr → String
  | .nil => ""
  | .cons x tl =>
      (match x with
       | .null => ""
       | .undefined => ""
       | v => jsToString v) ++
      (match tl with
       | .nil => ""
       | .cons _ _ => ",") ++ arrToString tl

end

/-! ## String utilities (`trim`, the bullet regex, `split(/\r?\n+/)`) -/

/-- Whitespace as matched by JavaScript `trim` / the regex class `\s`
(modelled by its ASCII members plus no-break space; the client's strings
never contain the more exotic Unicode spaces). -/
def isJsSpace (c : Char) : Bool :=
  c = ' ' || c = '\t' || c = '\n' || c = '\r' || c = '\x0B' || c = '\x0C' || c = ' '

/-- Characters matched by the leading-bullet regex class `[\s*•-]`
(`main.js` line 87). -/
def isBulletChar (c : Char) : Bool :=
  isJsSpace c || c = '*' || c = '•' || c = '-'

/-- Strip leading and trailing JS whitespace from a character list. -/
def jsTrimList (l : List Char) : List Char :=
  ((l.dropWhile isJsSpace).reverse.dropWhile isJsSpace).reverse

/-- `s.trim()`. -/
def jsTrim (s : String) : String :=
  String.mk (jsTrimList s.data)

/-- `line.replace(/^[\s*•-]+/, "")`: drop the leading run of
whitespace/bullet characters. -/
def stripBullets (s : String) : String :=
  String.mk (s.data.dropWhile isBulletChar)

/-- `s.slice(0, n)`. -/
def jsSlice (n : Nat) (s : String) : String :=
  String.mk (s.data.take n)

/-- Drop a leading run of `'\n'` characters (the `+` in `/\r?\n+/`
after its first newline). -/
def dropNl : List Char → List Char
  | '\n' :: rest => dropNl rest
  | l => l

/-- Worker for `split(/\r?\n+/)`: a separator is an optional `'\r'`
followed by a maximal run of `'\n'`.  The fuel argument only guarantees
structural recursion; `splitRN` supplies fuel at least the length of the
list, so the fuel-exhausted branch is never taken. -/
def splitLines : Nat → List Char → List Char → List String
  | _, [], acc => [String.mk acc.reverse]
  | 0, rest, acc => [String.mk (acc.reverse ++ rest)]
  | f + 1, '\n' :: rest, acc =>
      String.mk acc.reverse :: splitLines f (dropNl rest) []
  | f + 1, '\r' :: '\n' :: rest, acc =>
      String.mk acc.reverse :: splitLines f (dropNl rest) []
  | f + 1, c :: rest, acc => splitLines f rest (c :: acc)

/-- `value.split(/\r?\n+/)` (`main.js` line 86). -/
def splitRN (s : String) : List String :=
  splitLines s.data.length s.data []

/-- `normalizeSummary` (`main.js` lines 77–91): coerce an arbitrary
`assistant_summary` value to a list of display lines. -/
def normalizeSummary (value : JSVal) : List String :=
  if jsTruthy value = false then []
  else
    match value with
    | .arr items =>
        (items.toList.map (fun it => jsTrim (jsToString (jsOr it (.str ""))))).filter
          (fun x => x ≠ "")
    | .str s =>
        ((splitRN s).map (fun line => jsTrim (stripBullets line))).filter
          (fun x => x ≠ "")
    | _ => []

/-! ## Number conversion (`Number(v)`, `toFixed(2)`) -/

/-- Accumulate the value of a run of decimal digits (`none` on any
non-digit). -/
def decNatAux : List Char → Nat → Option Nat
  | [], acc => some acc
  | c :: rest, acc =>
      if c.isDigit then decNatAux rest (acc * 10 + (c.toNat - '0'.toNat))
      else none

/-- Parse an optionally signed nonempty decimal numeral. -/
def parseIntNumeral : List Char → Option Int
  | [] => none
  | '-' :: rest =>
      if rest = [] then none
      else (decNatAux rest 0).map (fun n => -(n : Int))
  | '+' :: rest =>
      if rest = [] then none
      else (decNatAux rest 0).map (fun n => (n : Int))
  | l => (decNatAux l 0).map (fun n => (n : Int))

/-- `Number(s)` for a string: empty/whitespace is `0`; otherwise the
decimal integer value, or `NaN` when the trimmed string is not an
integer numeral (the client never feeds fractional numerals through this
path, so the integer grammar suffices for the model). -/
def strToNumber (s : String) : JSVal :=
  let t := jsTrim s
  if t = "" then .num 0
  else
    match parseIntNumeral t.data with
    | some n => .num n
    | none => .nan

/-- `Number(v)` conversion. -/
def toNumber : JSVal → JSVal
  | .null => .num 0
  | .undefined => .nan
  | .bool b => .num (if b then 1 else 0)
  | .num n => .num n
  | .nan => .nan
  | .str s => strToNumber s
  | .arr xs => strToNumber (arrToString xs)
  | .obj _ => .nan

/-- `Number(v).toFixed(2)` on the integer model: `n` prints as `n.00`,
`NaN` prints as `NaN`. -/
def fixed2 (v : JSVal) : String :=
  match toNumber v with
  | .num n => toString n ++ ".00"
  | _ => "NaN"

/-- `(Number(v) || 0).toFixed(2)` (`main.js` lines 276–277). -/
def fixed2OrZero (v : JSVal) : String :=
  (match toNumber v with
   | .num n => toString n
   | _ => "0") ++ ".00"

/-! ## Chat bubbles and effects -/

/-- Options object passed to `addMessage` (`main.js` line 24: the
`extras` parameter, defaulting to `{}`).  Absent string options are
encoded as `""`, matching the falsiness checks `addMessage` performs. -/
structure Extras where
  error : Bool := false
  title : String := ""
  meta : String := ""
  summary : List String := []
  reply : String := ""
deriving DecidableEq, Repr

/-- A chat bubble as built by `addMessage` (`main.js` lines 24–75):
each optional part is rendered only when the corresponding extra is
truthy, the summary list only when nonempty. -/
structure ChatMsg where
  role : String
  isError : Bool
  title : Option String
  meta : Option String
  text : Option String
  summary : List String
  reply : Option String
deriving DecidableEq, Repr

/-- `addMessage(role, text, extras)` (`main.js` lines 24–75), modelled as
the chat bubble it appends to the chat log. -/
def addMessage (role text : String) (ex : Extras) : ChatMsg :=
  { role := role
    isError := ex.error
    title := if ex.title = "" then none else some ex.title
    meta := if ex.meta = "" then none else some ex.meta
    text := if text = "" then none else some text
    summary := ex.summary
    reply := if ex.reply = "" then none else some ex.reply }

/-- An HTTP request issued by the client. -/
inductive Request where
  | ask (question : String) (limit : Nat)
  | reset
  | get (path : String)
deriving DecidableEq, Repr

/-- One observable side effect of the client code. -/
inductive Eff where
  | msg (m : ChatMsg)
  | load
  | notif (body : String)
  | warn
  | request (r : Request)
deriving DecidableEq, Repr

/-- Chat bubbles appended by a list of effects, in order. -/
def msgsOf (effs : List Eff) : List ChatMsg :=
  effs.filterMap (fun e =>
    match e with
    | .msg m => some m
    | _ => none)

/-- Number of `loadEmails()` invocations in a list of effects. -/
def loadsOf (effs : List Eff) : Nat :=
  (effs.filter (fun e => e = .load)).length

/-- Bodies of browser notifications created by a list of effects. -/
def notifsOf (effs : List Eff) : List String :=
  effs.filterMap (fun e =>
    match e with
    | .notif b => some b
    | _ => none)

/-- HTTP requests issued by a list of effects, in order. -/
def reqsOf (effs : List Eff) : List Request :=
  effs.filterMap (fun e =>
    match e with
    | .request r => some r
    | _ => none)

/-- Number of chat bubbles with main text `t` in a list of effects. -/
def countText (t : String) (effs : List Eff) : Nat :=
  ((msgsOf effs).filter (fun m => m.text = some t)).length

/-! ## Client state -/

/-- Module-level mutable state of the client (`main.js` lines 185–187)
together with the `disabled` properties of the two buttons the handlers
toggle. -/
structure ClientState where
  sending : Bool
  resetting : Bool
  awaitingResetAck : Bool
  sendDisabled : Bool
  resetDisabled : Bool
deriving DecidableEq, Repr

/-- Per-connection state of `connectSSE` (`main.js` lines 290–291). -/
structure ConnState where
  announced : Bool
  errorNotified : Bool
deriving DecidableEq, Repr

/-- State created at the top of `connectSSE`. -/
def initConnState : ConnState := { announced := false, errorNotified := false }

/-- Browser notification environment: whether `"Notification" in window`
holds and the current `Notification.permission` string. -/
structure NotifEnv where
  notifSupported : Bool
  notifPermission : String
deriving DecidableEq, Repr

/-! ## Chat send and reset (`sendChat`, `resetInbox`) -/

/-- Text of the `TypeError` raised when `.trim()` is called on a truthy
non-string response field.  The exact engine wording is
environment-specific; no theorem below depends on this constant's
value. -/
def typeErrorText : String := "TypeError"

/-- `sendChat` (`main.js` lines 189–215).  The `/ask` response is passed
in explicitly: `.error m` is a failed `jpost` (HTTP error or network
failure, with `err.message = m`), `.ok res` the parsed JSON reply. -/
def sendChat (input : String) (resp : Except String JSVal) (s : ClientState) :
    ClientState × List Eff :=
  if s.sending then (s, [])
  else
    let message := jsTrim input
    if message = "" then (s, [])
    else
      -- addMessage("user", message); sending = true; sendButton.disabled = true
      let userEff := Eff.msg (addMessage "user" message {})
      let reqEff := Eff.request (.ask message 100)
      let done (m : ChatMsg) : ClientState × List Eff :=
        -- finally: sending = false; sendButton.disabled = false
        ({ s with sending := false, sendDisabled := false },
         [userEff, reqEff, Eff.msg m])
      match resp with
      | .error em =>
          done (addMessage "assistant"
            ("Sorry, I ran into an error while checking your inbox: " ++ em)
            { error := true })
      | .ok res =>
          if isNullish res then
            -- res.answer on null throws; caught by the catch block
            done (addMessage "assistant"
              ("Sorry, I ran into an error while checking your inbox: " ++ typeErrorText)
              { error := true })
          else
            match jsOr (jsGet res "answer") (.str "I couldn't find anything helpful just yet.") with
            | .str t => done (addMessage "assistant" (jsTrim t) {})
            | _ =>
                -- a truthy non-string answer: `.trim()` throws; caught
                done (addMessage "assistant"
                  ("Sorry, I ran into an error while checking your inbox: " ++ typeErrorText)
                  { error := true })

/-- Chat line reporting a successful self-initiated reset
(`main.js` lines 231–234). -/
def resetSuccessText (deleted : JSVal) : String :=
  if jsTruthy deleted then
    "Cleared " ++ jsToString deleted ++ " stored email" ++
      (if eqNumOne deleted then "" else "s") ++ ". I'll reanalyze now."
  else "I cleared the stored emails. I'll reanalyze your inbox now."

/-- `resetInbox` (`main.js` lines 217–251).  `confirmed` is the result of
the `window.confirm` dialog; `resp` the outcome of `jpost("/reset", {})`. -/
def resetInbox (confirmed : Bool) (resp : Except String JSVal) (s : ClientState) :
    ClientState × List Eff :=
  if s.resetting then (s, [])
  else if confirmed = false then (s, [])
  else
    -- resetting = true; resetButton.disabled = true; awaitingResetAck = true
    match resp with
    | .error em =>
        -- catch: awaitingResetAck = false, error bubble;
        -- finally: requestSucceeded is false, awaitingResetAck stays false
        ({ s with resetting := false, resetDisabled := false, awaitingResetAck := false },
         [Eff.request .reset,
          Eff.msg (addMessage "assistant" ("Sorry, I couldn't reset the inbox: " ++ em)
            { error := true })])
    | .ok res =>
        if isNullish res then
          -- requestSucceeded = true, then res.deleted throws; the catch
          -- block clears awaitingResetAck and reports the error
          ({ s with resetting := false, resetDisabled := false, awaitingResetAck := false },
           [Eff.request .reset,
            Eff.msg (addMessage "assistant" ("Sorry, I couldn't reset the inbox: " ++ typeErrorText)
              { error := true })])
        else
          let deleted := toNumber (nullishD (jsGet res "deleted") (.num 0))
          -- success: awaitingResetAck stays true (only the SSE echo clears it)
          ({ s with resetting := false, resetDisabled := false, awaitingResetAck := true },
           [Eff.request .reset,
            Eff.msg (addMessage "assistant" (resetSuccessText deleted) {}),
            Eff.load])

/-! ## SSE message handling (`connectSSE` handlers) -/

/-- `addAssistantAlert(data)` (`main.js` lines 264–287), modelled as the
chat bubble it appends.  The caller (`handleData`) has already ruled out
a truthy non-string `assistant_message`, so the `.trim()` here is
total. -/
def addAssistantAlert (data : JSVal) : ChatMsg :=
  let summary := normalizeSummary (jsGet data "assistant_summary")
  let replyDraft :=
    match jsGet data "assistant_reply" with
    | .str s => jsTrim s
    | _ => ""
  let amTrimmed :=
    match jsGet data "assistant_message" with
    | .str s => jsTrim s
    | _ => ""
  let message :=
    if amTrimmed ≠ "" then amTrimmed
    else "You have an actionable email from " ++
      jsToString (jsOr (jsGet data "sender") (.str "someone")) ++ "."
  let metaParts :=
    (if jsTruthy (jsGet data "subject") then
      ["Subject: " ++ jsToString (jsGet data "subject")] else []) ++
    (if isUndef (jsGet data "reply_needed_score") = false ∧
        isUndef (jsGet data "importance_score") = false then
      ["Scores — reply " ++ fixed2OrZero (jsGet data "reply_needed_score") ++
        ", importance " ++ fixed2OrZero (jsGet data "importance_score")] else [])
  addMessage "assistant" message
    { title := "New email from " ++ jsToString (jsOr (jsGet data "sender") (.str "Someone"))
      meta := String.intercalate " • " metaParts
      summary := summary
      reply := replyDraft }

/-- Body of the browser notification (`main.js` lines 311–312). -/
def notifBody (data : JSVal) : String :=
  jsSlice 140
    (if jsTruthy (jsGet data "assistant_message") then
      jsToString (jsGet data "assistant_message")
    else
      jsToString (jsOr (jsGet data "subject") (.str "(no subject)")) ++ " — " ++
        jsToString (jsOr (jsGet data "sender") (.str "")))

/-- Chat line for a `reset` push event not initiated by this client
(`main.js` lines 335–337). -/
def resetEchoText (deleted : JSVal) : String :=
  if jsTruthy deleted then
    "Stored email history was cleared (" ++ jsToString deleted ++ " message" ++
      (if eqNumOne deleted then "" else "s") ++ ")."
  else "Stored email history was cleared."

/-- Dispatch on a successfully parsed, non-nullish SSE payload
(`main.js` lines 308–341). -/
def handleData (env : NotifEnv) (data : JSVal) (s : ClientState) :
    ClientState × List Eff :=
  let ty := jsGet data "type"
  if isTag ty "important_email" && jsTruthy (jsGet data "actionable") then
    let am := jsGet data "assistant_message"
    if jsTruthy am && !(isStr am) then
      -- (data.assistant_message || "").trim() throws a TypeError inside
      -- addAssistantAlert; the handler's try/catch turns it into a warning
      (s, [Eff.warn])
    else
      (s,
       [Eff.msg (addAssistantAlert data)] ++
       (if env.notifSupported && env.notifPermission = "granted" then
         [Eff.notif (notifBody data)] else []) ++
       [Eff.load])
  else if isTag ty "auth_required" then
    (s, [Eff.msg (addMessage "assistant"
      "Please connect Gmail so I can keep watching for new messages."
      { error := true })])
  else if isTag ty "error" then
    (s, [Eff.msg (addMessage "assistant"
      ("I ran into an error while polling Gmail: " ++ jsToString (jsGet data "message"))
      { error := true })])
  else if isTag ty "reset" then
    let deleted := toNumber (nullishD (jsGet data "deleted") (.num 0))
    if s.awaitingResetAck then
      ({ s with awaitingResetAck := false }, [Eff.load])
    else
      (s, [Eff.msg (addMessage "assistant" (resetEchoText deleted) {}), Eff.load])
  else
    (s, [])

/-- `source.onmessage` (`main.js` lines 305–345).  The payload is the
outcome of `JSON.parse(event.data)`: `.error` when parsing threw.  A
parse of `"null"` succeeds but `data.type` then throws a `TypeError`;
both exceptions land in the same catch, which only logs a warning. -/
def onMessage (env : NotifEnv) (payload : Except String JSVal) (s : ClientState) :
    ClientState × List Eff :=
  match payload with
  | .error _ => (s, [Eff.warn])
  | .ok data =>
      if isNullish data then (s, [Eff.warn])
      else handleData env data s

/-- Announcement text of `source.onopen` (`main.js` lines 297–300). -/
def connectedText : String :=
  "I'm connected to Gmail updates. I'll ping you when something needs attention."

/-- Chat line of `source.onerror` (`main.js` lines 349–352). -/
def lostText : String :=
  "I lost connection to Gmail updates. I'll retry automatically."

/-- `source.onopen` (`main.js` lines 294–303). -/
def connOpen (c : ConnState) : ConnState × List Eff :=
  if c.announced then ({ c with errorNotified := false }, [])
  else
    ({ announced := true, errorNotified := false },
     [Eff.msg (addMessage "assistant" connectedText {})])

/-- `source.onerror` (`main.js` lines 347–356). -/
def connError (c : ConnState) : ConnState × List Eff :=
  if c.errorNotified then (c, [])
  else
    ({ c with errorNotified := true },
     [Eff.msg (addMessage "assistant" lostText { error := true })])

/-- One event fired on the `EventSource` of a `connectSSE` call. -/
inductive ConnEvent where
  | opened
  | errored
  | payload (p : Except String JSVal)

/-- Dispatch one `EventSource` event to the handlers `connectSSE`
installed. -/
def sseStep (env : NotifEnv) (st : ConnState × ClientState) :
    ConnEvent → (ConnState × ClientState) × List Eff
  | .opened =>
      let r := connOpen st.1
      ((r.1, st.2), r.2)
  | .errored =>
      let r := connError st.1
      ((r.1, st.2), r.2)
  | .payload p =>
      let r := onMessage env p st.2
      ((st.1, r.1), r.2)

/-- Run a trace of `EventSource` events, collecting all effects. -/
def sseRun (env : NotifEnv) (st : ConnState × ClientState) :
    List ConnEvent → (ConnState × ClientState) × List Eff
  | [] => (st, [])
  | e :: es =>
      let r := sseStep env st e
      let rest := sseRun env r.1 es
      (rest.1, r.2 ++ rest.2)

/-! ## Email list rendering (`loadEmails`) -/

/-- One rendered email card (`main.js` lines 116–182).  The date row's
`toLocaleString` rendering is environment-dependent and is modelled by
the epoch-millis value `Number(e.internal_date)` it displays. -/
structure EmailCard where
  subject : String
  sender : String
  statusClass : String
  statusText : String
  dateMillis : Option JSVal
  snippet : Option String
  scoresText : String
  note : Option String
  summary : List String
  reply : Option String
deriving DecidableEq, Repr

/-- Build the card for one email record (the body of the `for` loop in
`loadEmails`, `main.js` lines 116–182). -/
def renderEmailCard (e : JSVal) : EmailCard :=
  { subject := jsToString (jsOr (jsGet e "subject") (.str "(no subject)"))
    sender := "From: " ++ jsToString (jsGet e "sender")
    statusClass := "email-status " ++ (if jsTruthy (jsGet e "is_unread") then "unread" else "read")
    statusText := if jsTruthy (jsGet e "is_unread") then "Unread" else "Read"
    dateMillis :=
      if jsTruthy (jsGet e "internal_date") then some (toNumber (jsGet e "internal_date"))
      else none
    snippet :=
      if jsTruthy (jsGet e "snippet") then some (jsToString (jsGet e "snippet")) else none
    scoresText :=
      "Reply score " ++ fixed2 (nullishD (jsGet e "reply_needed_score") (.num 0)) ++
        " · Importance " ++ fixed2 (nullishD (jsGet e "importance_score") (.num 0))
    note :=
      if jsTruthy (jsGet e "assistant_message") then
        some (jsToString (jsGet e "assistant_message"))
      else none
    summary := normalizeSummary (jsGet e "assistant_summary")
    reply :=
      if jsTruthy (jsGet e "assistant_reply") then
        some (jsToString (jsGet e "assistant_reply"))
      else none }

/-- Final content of the `#emails` element after `loadEmails` runs. -/
inductive EmailsView where
  | blank
  | allCaughtUp (text : String)
  | cards (cs : List EmailCard)
deriving DecidableEq, Repr

/-- Query string of the email fetch (`main.js` line 98). -/
def emailsQuery : String := "/emails?limit=50&actionable_only=true"

/-- `loadEmails` (`main.js` lines 93–183).  The `GET` result is passed in
explicitly: `.error m` is a failed `jget`, `.ok` the parsed JSON array. -/
def loadEmails (result : Except String (List JSVal)) : EmailsView × List Eff :=
  match result with
  | .error _ =>
      (.blank,
       [Eff.request (.get emailsQuery),
        Eff.msg (addMessage "assistant"
          "I couldn't load your actionable emails. Please try refreshing."
          { error := true })])
  | .ok emails =>
      if emails = [] then
        (.allCaughtUp "You're all caught up. No replies are needed right now.",
         [Eff.request (.get emailsQuery)])
      else
        (.cards (emails.map renderEmailCard), [Eff.request (.get emailsQuery)])

/-- Module top level (`main.js` lines 388–394): the greeting bubble, the
initial `loadEmails()`, then `connectSSE()`. -/
def pageInit : List Eff :=
  [Eff.msg (addMessage "assistant"
    "Hi! I'm Inbox Buddy. Ask me about your inbox or wait for me to nudge you when a reply is needed."
    {}),
   Eff.load]

/-! ## Helper lemmas about `dropWhile` and trimming -/

theorem dropWhile_head_cases (p : Char → Bool) (l : List Char) :
    l.dropWhile p = [] ∨ ∃ a t, l.dropWhile p = a :: t ∧ p a = false := by
  induction l with
  | nil => left; rfl
  | cons c cs ih =>
    by_cases h : p c
    · simpa [List.dropWhile_cons, h] using ih
    · right
      exact ⟨c, cs, by simp [List.dropWhile_cons, h], by simpa using h⟩

theorem dropWhile_eq_self_of (p : Char → Bool) (l : List Char)
    (h : l = [] ∨ ∃ a t, l = a :: t ∧ p a = false) : l.dropWhile p = l := by
  rcases h with rfl | ⟨a, t, rfl, ha⟩
  · rfl
  · simp [List.dropWhile_cons, ha]

theorem dropWhile_idem (p : Char → Bool) (l : List Char) :
    (l.dropWhile p).dropWhile p = l.dropWhile p :=
  dropWhile_eq_self_of p _ (dropWhile_head_cases p l)

theorem head_dropWhile_false (p : Char → Bool) (l : List Char) {a : Char}
    (h : (l.dropWhile p).head? = some a) : p a = false := by
  rcases dropWhile_head_cases p l with hnil | ⟨b, t, hbt, hb⟩
  · rw [hnil] at h; cases h
  · rw [hbt] at h
    simp only [List.head?_cons, Option.some_inj] at h
    rwa [← h]

theorem getLast?_dropWhile (p : Char → Bool) (l : List Char)
    (h : l.dropWhile p ≠ []) : (l.dropWhile p).getLast? = l.getLast? := by
  induction l with
  | nil => simp at h
  | cons c cs ih =>
    by_cases hc : p c
    · rw [List.dropWhile_cons, if_pos hc] at h ⊢
      have hcs : cs ≠ [] := by
        intro e
        rw [e] at h
        simp at h
      rw [ih h]
      cases cs with
      | nil => exact absurd rfl hcs
      | cons b bs => rfl
    · rw [List.dropWhile_cons, if_neg hc]

theorem head_jsTrimList_false (l : List Char) {a : Char}
    (h : (jsTrimList l).head? = some a) : isJsSpace a = false := by
  unfold jsTrimList at h
  rw [List.head?_reverse] at h
  have hne : (l.dropWhile isJsSpace).reverse.dropWhile isJsSpace ≠ [] := by
    intro e
    rw [e] at h
    cases h
  rw [getLast?_dropWhile _ _ hne, List.getLast?_reverse] at h
  exact head_dropWhile_false isJsSpace l h

theorem getLast_jsTrimList_false (l : List Char) {a : Char}
    (h : (jsTrimList l).getLast? = some a) : isJsSpace a = false := by
  unfold jsTrimList at h
  rw [List.getLast?_reverse] at h
  exact head_dropWhile_false isJsSpace _ h

theorem dropWhile_eq_self_of_head (p : Char → Bool) (l : List Char)
    (h : ∀ a, l.head? = some a → p a = false) : l.dropWhile p = l := by
  apply dropWhile_eq_self_of
  cases l with
  | nil => left; rfl
  | cons a t => exact Or.inr ⟨a, t, rfl, h a rfl⟩

theorem jsTrimList_idem (l : List Char) :
    jsTrimList (jsTrimList l) = jsTrimList l := by
  have h1 : (jsTrimList l).dropWhile isJsSpace = jsTrimList l :=
    dropWhile_eq_self_of_head _ _ (fun _ ha => head_jsTrimList_false l ha)
  have h2 : (jsTrimList l).reverse.dropWhile isJsSpace = (jsTrimList l).reverse := by
    apply dropWhile_eq_self_of_head
    intro a ha
    rw [List.head?_reverse] at ha
    exact getLast_jsTrimList_false l ha
  rw [show jsTrimList (jsTrimList l) =
      (((jsTrimList l).dropWhile isJsSpace).reverse.dropWhile isJsSpace).reverse from rfl,
    h1, h2, List.reverse_reverse]

theorem jsTrim_idem (s : String) : jsTrim (jsTrim s) = jsTrim s := by
  show String.mk (jsTrimList (String.mk (jsTrimList s.data)).data) = _
  rw [show (String.mk (jsTrimList s.data)).data = jsTrimList s.data from rfl,
    jsTrimList_idem]
  rfl

theorem head_jsTrim_of_stripBullets (l : List Char) {a : Char}
    (h : (jsTrimList (l.dropWhile isBulletChar)).head? = some a) :
    isBulletChar a = false := by
  set L := l.dropWhile isBulletChar with hL
  have hhead : ∀ b, L.head? = some b → isBulletChar b = false := by
    intro b hb
    exact head_dropWhile_false isBulletChar l (hL ▸ hb)
  have hspace : ∀ b, L.head? = some b → isJsSpace b = false := by
    intro b hb
    have := hhead b hb
    unfold isBulletChar at this
    rcases Bool.or_eq_false_iff.mp this with ⟨h1, _⟩
    exact Bool.or_eq_false_iff.mp (Bool.or_eq_false_iff.mp h1).1 |>.1
  unfold jsTrimList at h
  rw [dropWhile_eq_self_of_head _ _ hspace, List.head?_reverse] at h
  have hne : L.reverse.dropWhile isJsSpace ≠ [] := by
    intro e
    rw [e] at h
    cases h
  rw [getLast?_dropWhile _ _ hne, List.getLast?_reverse] at h
  exact hhead a h

/-! ## Facts about `normalizeSummary` -/

theorem mem_normalizeSummary {v : JSVal} {x : String}
    (h : x ∈ normalizeSummary v) : x ≠ "" ∧ jsTrim x = x := by
  unfold normalizeSummary at h
  by_cases ht : jsTruthy v = false
  · rw [if_pos ht] at h
    cases h
  · rw [if_neg ht] at h
    cases v with
    | arr items =>
        simp only [List.mem_filter, List.mem_map, decide_eq_true_eq] at h
        obtain ⟨⟨it, _, rfl⟩, hne⟩ := h
        exact ⟨hne, jsTrim_idem _⟩
    | str s =>
        simp only [List.mem_filter, List.mem_map, decide_eq_true_eq] at h
        obtain ⟨⟨line, _, rfl⟩, hne⟩ := h
        exact ⟨hne, jsTrim_idem _⟩
    | null => cases h
    | undefined => cases h
    | bool b => cases h
    | num n => cases h
    | nan => cases h
    | obj fs => cases h

theorem mem_normalizeSummary_str_head {s : String} {x : String}
    (h : x ∈ normalizeSummary (.str s)) :
    ∀ ch, x.data.head? = some ch → isBulletChar ch = false := by
  intro ch hch
  unfold normalizeSummary at h
  by_cases ht : jsTruthy (JSVal.str s) = false
  · rw [if_pos ht] at h
    cases h
  · rw [if_neg ht] at h
    simp only [List.mem_filter, List.mem_map, decide_eq_true_eq] at h
    obtain ⟨⟨line, _, rfl⟩, _⟩ := h
    have : (jsTrim (stripBullets line)).data = jsTrimList (line.data.dropWhile isBulletChar) := rfl
    rw [this] at hch
    exact head_jsTrim_of_stripBullets line.data hch

theorem normalizeSummary_roundtrip (out : List String)
    (H : ∀ x ∈ out, x ≠ "" ∧ jsTrim x = x) :
    ((JSArr.ofList (out.map JSVal.str)).toList.map
        (fun it => jsTrim (jsToString (jsOr it (.str ""))))).filter (fun x => x ≠ "") = out := by
  rw [JSArr.toList_ofList]
  induction out with
  | nil => rfl
  | cons x t ih =>
    obtain ⟨hx, htr⟩ := H x (List.mem_cons_self x t)
    have hrest := ih (fun y hy => H y (List.mem_cons_of_mem x hy))
    have hval : jsTrim (jsToString (jsOr (JSVal.str x) (.str ""))) = x := by
      rw [show jsOr (JSVal.str x) (.str "") =
          (if jsTruthy (JSVal.str x) = true then JSVal.str x else .str "") from rfl]
      have : jsTruthy (JSVal.str x) = true := by
        simp only [jsTruthy, decide_eq_true_eq]
        exact hx
      rw [if_pos this]
      exact htr
    simp only [List.map_cons, hval, List.filter_cons]
    rw [if_pos (by simpa using hx)]
    rw [hrest]

theorem normalizeSummary_idem (v : JSVal) :
    normalizeSummary (.arr (JSArr.ofList ((normalizeSummary v).map JSVal.str))) =
      normalizeSummary v := by
  have H := fun x hx => mem_normalizeSummary (v := v) (x := x) hx
  rw [show normalizeSummary (.arr (JSArr.ofList ((normalizeSummary v).map JSVal.str))) =
      ((JSArr.ofList ((normalizeSummary v).map JSVal.str)).toList.map
        (fun it => jsTrim (jsToString (jsOr it (.str ""))))).filter (fun x => x ≠ "") from rfl]
  exact normalizeSummary_roundtrip _ H

/-! ## Notification body length -/

theorem jsSlice_length_le (n : Nat) (s : String) : (jsSlice n s).length ≤ n := by
  show (String.mk (s.data.take n)).length ≤ n
  rw [show (String.mk (s.data.take n)).length = (s.data.take n).length from rfl]
  rw [List.length_take]
  exact min_le_left _ _

/-! ## Computation rules for the effect extractors -/

@[simp] theorem msgsOf_nil : msgsOf [] = [] := rfl

@[simp] theorem msgsOf_cons_msg (m : ChatMsg) (t : List Eff) :
    msgsOf (.msg m :: t) = m :: msgsOf t := rfl

@[simp] theorem msgsOf_cons_load (t : List Eff) : msgsOf (.load :: t) = msgsOf t := rfl

@[simp] theorem msgsOf_cons_notif (b : String) (t : List Eff) :
    msgsOf (.notif b :: t) = msgsOf t := rfl

@[simp] theorem msgsOf_cons_warn (t : List Eff) : msgsOf (.warn :: t) = msgsOf t := rfl

@[simp] theorem msgsOf_cons_request (r : Request) (t : List Eff) :
    msgsOf (.request r :: t) = msgsOf t := rfl

@[simp] theorem loadsOf_nil : loadsOf [] = 0 := rfl

@[simp] theorem loadsOf_cons_msg (m : ChatMsg) (t : List Eff) :
    loadsOf (.msg m :: t) = loadsOf t := rfl

@[simp] theorem loadsOf_cons_load (t : List Eff) : loadsOf (.load :: t) = loadsOf t + 1 := rfl

@[simp] theorem loadsOf_cons_notif (b : String) (t : List Eff) :
    loadsOf (.notif b :: t) = loadsOf t := rfl

@[simp] theorem loadsOf_cons_warn (t : List Eff) : loadsOf (.warn :: t) = loadsOf t := rfl

@[simp] theorem loadsOf_cons_request (r : Request) (t : List Eff) :
    loadsOf (.request r :: t) = loadsOf t := rfl

@[simp] theorem notifsOf_nil : notifsOf [] = [] := rfl

@[simp] theorem notifsOf_cons_msg (m : ChatMsg) (t : List Eff) :
    notifsOf (.msg m :: t) = notifsOf t := rfl

@[simp] theorem notifsOf_cons_load (t : List Eff) : notifsOf (.load :: t) = notifsOf t := rfl

@[simp] theorem notifsOf_cons_notif (b : String) (t : List Eff) :
    notifsOf (.notif b :: t) = b :: notifsOf t := rfl

@[simp] theorem notifsOf_cons_warn (t : List Eff) : notifsOf (.warn :: t) = notifsOf t := rfl

@[simp] theorem notifsOf_cons_request (r : Request) (t : List Eff) :
    notifsOf (.request r :: t) = notifsOf t := rfl

@[simp] theorem reqsOf_nil : reqsOf [] = [] := rfl

@[simp] theorem reqsOf_cons_msg (m : ChatMsg) (t : List Eff) :
    reqsOf (.msg m :: t) = reqsOf t := rfl

@[simp] theorem reqsOf_cons_load (t : List Eff) : reqsOf (.load :: t) = reqsOf t := rfl

@[simp] theorem reqsOf_cons_notif (b : String) (t : List Eff) :
    reqsOf (.notif b :: t) = reqsOf t := rfl

@[simp] theorem reqsOf_cons_warn (t : List Eff) : reqsOf (.warn :: t) = reqsOf t := rfl

@[simp] theorem reqsOf_cons_request (r : Request) (t : List Eff) :
    reqsOf (.request r :: t) = r :: reqsOf t := rfl

theorem countText_append (t : String) (xs ys : List Eff) :
    countText t (xs ++ ys) = countText t xs + countText t ys := by
  simp [countText, msgsOf, List.filterMap_append, List.filter_append]

/-- Sample client state used by witness instantiations below. -/
def sampleState : ClientState :=
  { sending := false, resetting := false, awaitingResetAck := false,
    sendDisabled := false, resetDisabled := false }

/-! ## Claims -/

/-- C8 (amended): `normalizeSummary` is total and idempotent; every
output line is a non-empty string with no leading or trailing
whitespace; leading bullet characters are stripped only on the string
branch — for a string input every output line starts with a non-bullet
character, while array inputs keep their items' leading bullets. -/
theorem claim_C8 (v : JSVal) :
    (∀ x ∈ normalizeSummary v, x ≠ "" ∧ jsTrim x = x) ∧
    normalizeSummary (.arr (JSArr.ofList ((normalizeSummary v).map JSVal.str))) =
      normalizeSummary v ∧
    (∀ s : String, ∀ x ∈ normalizeSummary (JSVal.str s),
      ∀ ch, x.data.head? = some ch → isBulletChar ch = false) :=
  ⟨fun _ hx => mem_normalizeSummary hx,
   normalizeSummary_idem v,
   fun _ _ hx => mem_normalizeSummary_str_head hx⟩

/-- C8 counterexample: on an array input the items are only trimmed,
never bullet-stripped, so the output line `"- item"` keeps its leading
bullet character `'-'`, contrary to the claim. -/
theorem claim_C8_counterexample :
    normalizeSummary (JSVal.arr (.cons (.str "- item") .nil)) = ["- item"] ∧
    ("- item").data.head? = some '-' ∧ isBulletChar '-' = true := by
  decide

/-- C8 witness: concrete instantiation of the amended claim. -/
theorem claim_C8_witness :
    ("a" ≠ "" ∧ jsTrim "a" = "a") ∧
    normalizeSummary (.arr (JSArr.ofList
      ((normalizeSummary (JSVal.str "• a\nb")).map JSVal.str))) =
      normalizeSummary (JSVal.str "• a\nb") ∧
    isBulletChar 'a' = false :=
  ⟨(claim_C8 (JSVal.str "• a\nb")).1 "a" (by decide),
   (claim_C8 (JSVal.str "• a\nb")).2.1,
   (claim_C8 (JSVal.str "• a\nb")).2.2 "• a\nb" "a" (by decide) 'a' (by decide)⟩

/-- C2: the `onmessage` handler is total and dispatches exactly on the
four event tags.  A payload that is not valid JSON (and likewise the
JSON literal `null`, whose field access throws inside the same `try`)
produces only a console warning; a parsed event whose `type` is none of
`important_email`, `auth_required`, `error`, `reset` leaves the client
state unchanged and produces no chat message, no email reload, no
notification and no request. -/
theorem claim_C2 (env : NotifEnv) (s : ClientState) :
    (∀ em, onMessage env (.error em) s = (s, [Eff.warn])) ∧
    (∀ data : JSVal,
      isTag (jsGet data "type") "important_email" = false →
      isTag (jsGet data "type") "auth_required" = false →
      isTag (jsGet data "type") "error" = false →
      isTag (jsGet data "type") "reset" = false →
      (onMessage env (.ok data) s).1 = s ∧
      msgsOf (onMessage env (.ok data) s).2 = [] ∧
      loadsOf (onMessage env (.ok data) s).2 = 0 ∧
      notifsOf (onMessage env (.ok data) s).2 = [] ∧
      reqsOf (onMessage env (.ok data) s).2 = []) := by
  refine ⟨fun em => rfl, ?_⟩
  intro data h1 h2 h3 h4
  by_cases hnn : isNullish data = true
  · simp [onMessage, hnn]
  · rw [Bool.not_eq_true] at hnn
    simp [onMessage, hnn, handleData, h1, h2, h3, h4]

/-- C2 witness: a parse failure and an unrecognized tag at concrete
inputs. -/
theorem claim_C2_witness :
    onMessage ⟨true, "granted"⟩ (.error "Unexpected token") sampleState =
      (sampleState, [Eff.warn]) ∧
    (onMessage ⟨true, "granted"⟩
      (.ok (JSVal.obj (.cons "type" (.str "ping") .nil))) sampleState).1 = sampleState ∧
    msgsOf (onMessage ⟨true, "granted"⟩
      (.ok (JSVal.obj (.cons "type" (.str "ping") .nil))) sampleState).2 = [] :=
  ⟨(claim_C2 ⟨true, "granted"⟩ sampleState).1 "Unexpected token",
   ((claim_C2 ⟨true, "granted"⟩ sampleState).2
      (JSVal.obj (.cons "type" (.str "ping") .nil)) rfl rfl rfl rfl).1,
   ((claim_C2 ⟨true, "granted"⟩ sampleState).2
      (JSVal.obj (.cons "type" (.str "ping") .nil)) rfl rfl rfl rfl).2.1⟩

/-- C3: a `reset` push event arriving while `awaitingResetAck` is set
adds no chat message, clears the flag and still invokes `loadEmails`;
with no pending self-reset it adds the history-was-cleared chat line
(carrying the deleted count when it is positive) and invokes
`loadEmails`. -/
theorem claim_C3 (env : NotifEnv) (s : ClientState) (data : JSVal)
    (htag : jsGet data "type" = .str "reset") :
    (s.awaitingResetAck = true →
      (onMessage env (.ok data) s).1 = { s with awaitingResetAck := false } ∧
      msgsOf (onMessage env (.ok data) s).2 = [] ∧
      loadsOf (onMessage env (.ok data) s).2 = 1) ∧
    (s.awaitingResetAck = false →
      (onMessage env (.ok data) s).1 = s ∧
      msgsOf (onMessage env (.ok data) s).2 =
        [addMessage "assistant"
          (resetEchoText (toNumber (nullishD (jsGet data "deleted") (.num 0)))) {}] ∧
      loadsOf (onMessage env (.ok data) s).2 = 1) ∧
    (∀ n : Int, jsGet data "deleted" = .num n → 0 < n →
      resetEchoText (toNumber (nullishD (jsGet data "deleted") (.num 0))) =
        "Stored email history was cleared (" ++ toString n ++ " message" ++
          (if n = 1 then "" else "s") ++ ").") ∧
    (jsGet data "deleted" = .undefined →
      resetEchoText (toNumber (nullishD (jsGet data "deleted") (.num 0))) =
        "Stored email history was cleared.") := by
  have hnn : isNullish data = false := by
    cases data with
    | null => exact absurd htag (by simp [jsGet])
    | undefined => exact absurd htag (by simp [jsGet])
    | bool b => rfl
    | num n => rfl
    | nan => rfl
    | str t => rfl
    | arr a => rfl
    | obj o => rfl
  have h1 : isTag (JSVal.str "reset") "important_email" = false := by decide
  have h2 : isTag (JSVal.str "reset") "auth_required" = false := by decide
  have h3 : isTag (JSVal.str "reset") "error" = false := by decide
  have h4 : isTag (JSVal.str "reset") "reset" = true := by decide
  refine ⟨?_, ?_, ?_, ?_⟩
  · intro hack
    simp [onMessage, hnn, handleData, htag, h1, h2, h3, h4, hack]
  · intro hack
    simp [onMessage, hnn, handleData, htag, h1, h2, h3, h4, hack]
  · intro n hdel hpos
    rw [hdel]
    rw [show toNumber (nullishD (JSVal.num n) (.num 0)) = JSVal.num n from rfl]
    unfold resetEchoText
    have htru : jsTruthy (JSVal.num n) = true := by
      simp only [jsTruthy, decide_eq_true_eq]
      exact hpos.ne'
    rw [if_pos htru]
    simp only [jsToString, eqNumOne, decide_eq_true_eq]
  · intro hdel
    rw [hdel]
    rfl

/-- C3 witness: a self-acknowledged and a foreign `reset` event at
concrete inputs. -/
theorem claim_C3_witness :
    (onMessage ⟨true, "granted"⟩
      (.ok (JSVal.obj (.cons "type" (.str "reset") (.cons "deleted" (.num 5) .nil))))
      { sampleState with awaitingResetAck := true }).1 =
        { { sampleState with awaitingResetAck := true } with awaitingResetAck := false } ∧
    msgsOf (onMessage ⟨true, "granted"⟩
      (.ok (JSVal.obj (.cons "type" (.str "reset") (.cons "deleted" (.num 5) .nil))))
      { sampleState with awaitingResetAck := true }).2 = [] ∧
    resetEchoText (toNumber (nullishD
      (jsGet (JSVal.obj (.cons "type" (.str "reset") (.cons "deleted" (.num 5) .nil)))
        "deleted") (.num 0))) =
      "Stored email history was cleared (" ++ toString (5 : Int) ++ " message" ++
        (if (5 : Int) = 1 then "" else "s") ++ ")." :=
  ⟨((claim_C3 ⟨true, "granted"⟩ { sampleState with awaitingResetAck := true }
      (JSVal.obj (.cons "type" (.str "reset") (.cons "deleted" (.num 5) .nil))) rfl).1
      rfl).1,
   ((claim_C3 ⟨true, "granted"⟩ { sampleState with awaitingResetAck := true }
      (JSVal.obj (.cons "type" (.str "reset") (.cons "deleted" (.num 5) .nil))) rfl).1
      rfl).2.1,
   (claim_C3 ⟨true, "granted"⟩ { sampleState with awaitingResetAck := true }
      (JSVal.obj (.cons "type" (.str "reset") (.cons "deleted" (.num 5) .nil))) rfl).2.2.1
      5 rfl (by decide)⟩

/-- All possible notification outputs of `handleData`: either none, or
exactly the (truncated) `notifBody`, and then only for an actionable
`important_email` event in a granted notification environment. -/
theorem notifsOf_handleData (env : NotifEnv) (data : JSVal) (s : ClientState) :
    notifsOf (handleData env data s).2 = [] ∨
    (notifsOf (handleData env data s).2 = [notifBody data] ∧
      isTag (jsGet data "type") "important_email" = true ∧
      jsTruthy (jsGet data "actionable") = true ∧
      env.notifSupported = true ∧ env.notifPermission = "granted") := by
  by_cases hc1 : (isTag (jsGet data "type") "important_email" &&
      jsTruthy (jsGet data "actionable")) = true
  · by_cases ham : (jsTruthy (jsGet data "assistant_message") &&
        !(isStr (jsGet data "assistant_message"))) = true
    · left
      simp [handleData, hc1, ham]
    · rw [Bool.not_eq_true] at ham
      by_cases henv : (env.notifSupported && decide (env.notifPermission = "granted")) = true
      · right
        obtain ⟨ht, ha⟩ := Bool.and_eq_true_iff.mp hc1
        obtain ⟨hs', hp⟩ := Bool.and_eq_true_iff.mp henv
        refine ⟨?_, ht, ha, hs', of_decide_eq_true hp⟩
        simp [handleData, hc1, ham, henv]
      · rw [Bool.not_eq_true] at henv
        left
        simp [handleData, hc1, ham, henv]
  · rw [Bool.not_eq_true] at hc1
    left
    by_cases hc2 : isTag (jsGet data "type") "auth_required" = true
    · simp [handleData, hc1, hc2]
    · rw [Bool.not_eq_true] at hc2
      by_cases hc3 : isTag (jsGet data "type") "error" = true
      · simp [handleData, hc1, hc2, hc3]
      · rw [Bool.not_eq_true] at hc3
        by_cases hc4 : isTag (jsGet data "type") "reset" = true
        · by_cases hack : s.awaitingResetAck = true
          · simp [handleData, hc1, hc2, hc3, hc4, hack]
          · rw [Bool.not_eq_true] at hack
            simp [handleData, hc1, hc2, hc3, hc4, hack]
        · rw [Bool.not_eq_true] at hc4
          simp [handleData, hc1, hc2, hc3, hc4]

/-- C10: a browser notification is created only for an `important_email`
push event whose `actionable` flag is truthy, and only when the
Notification API exists with permission `"granted"`; every created
notification's body is truncated to at most 140 characters.  An invalid
payload never creates a notification. -/
theorem claim_C10 (env : NotifEnv) (data : JSVal) (s : ClientState) :
    (∀ b ∈ notifsOf (onMessage env (.ok data) s).2, b.length ≤ 140) ∧
    (notifsOf (onMessage env (.ok data) s).2 ≠ [] →
      isTag (jsGet data "type") "important_email" = true ∧
      jsTruthy (jsGet data "actionable") = true ∧
      env.notifSupported = true ∧ env.notifPermission = "granted") ∧
    (∀ em, notifsOf (onMessage env (.error em) s).2 = []) := by
  have hkey : notifsOf (onMessage env (.ok data) s).2 = [] ∨
      (notifsOf (onMessage env (.ok data) s).2 = [notifBody data] ∧
        isTag (jsGet data "type") "important_email" = true ∧
        jsTruthy (jsGet data "actionable") = true ∧
        env.notifSupported = true ∧ env.notifPermission = "granted") := by
    by_cases hnn : isNullish data = true
    · left; simp [onMessage, hnn]
    · rw [Bool.not_eq_true] at hnn
      have : onMessage env (.ok data) s = handleData env data s := by
        simp [onMessage, hnn]
      rw [this]
      exact notifsOf_handleData env data s
  refine ⟨?_, ?_, fun em => rfl⟩
  · intro b hb
    rcases hkey with h | ⟨h, _⟩
    · rw [h] at hb
      cases hb
    · rw [h] at hb
      rcases List.mem_singleton.mp hb with rfl
      exact jsSlice_length_le 140 _
  · intro hne
    rcases hkey with h | ⟨_, h2⟩
    · exact absurd h hne
    · exact h2

/-- C10 witness: a concrete actionable `important_email` event in a
granted environment creates exactly one notification whose body length
is within bounds. -/
theorem claim_C10_witness :
    (∀ b ∈ notifsOf (onMessage ⟨true, "granted"⟩
      (.ok (JSVal.obj (.cons "type" (.str "important_email")
        (.cons "actionable" (.bool true)
          (.cons "subject" (.str "Hello") (.cons "sender" (.str "Ann") .nil))))))
      sampleState).2, b.length ≤ 140) ∧
    notifsOf (onMessage ⟨true, "granted"⟩ (.error "bad json") sampleState).2 = [] :=
  ⟨(claim_C10 ⟨true, "granted"⟩
      (JSVal.obj (.cons "type" (.str "important_email")
        (.cons "actionable" (.bool true)
          (.cons "subject" (.str "Hello") (.cons "sender" (.str "Ann") .nil)))))
      sampleState).1,
   (claim_C10 ⟨true, "granted"⟩
      (JSVal.obj (.cons "type" (.str "important_email")
        (.cons "actionable" (.bool true)
          (.cons "subject" (.str "Hello") (.cons "sender" (.str "Ann") .nil)))))
      sampleState).2.2 "bad json"⟩

/-- C4: every chat submission posts `/ask` with the trimmed, non-empty
input as `question` and `limit` 100; an empty trimmed input or an
in-flight request produces no request and leaves the chat log (and all
state) unchanged, so the question sent is never empty. -/
theorem claim_C4 (input : String) (resp : Except String JSVal) (s : ClientState) :
    (s.sending = false → jsTrim input ≠ "" →
      reqsOf (sendChat input resp s).2 = [.ask (jsTrim input) 100]) ∧
    (s.sending = true ∨ jsTrim input = "" → sendChat input resp s = (s, [])) ∧
    (∀ q lim, Request.ask q lim ∈ reqsOf (sendChat input resp s).2 →
      q ≠ "" ∧ lim = 100) := by
  by_cases hs : s.sending = true
  · refine ⟨fun h => absurd hs (by rw [h]; exact Bool.false_ne_true), ?_, ?_⟩
    · intro _
      simp [sendChat, hs]
    · intro q lim hmem
      simp [sendChat, hs] at hmem
  · rw [Bool.not_eq_true] at hs
    by_cases hm : jsTrim input = ""
    · refine ⟨fun _ h => absurd hm h, ?_, ?_⟩
      · intro _
        simp [sendChat, hs, hm]
      · intro q lim hmem
        simp [sendChat, hs, hm] at hmem
    · have hreq : reqsOf (sendChat input resp s).2 = [.ask (jsTrim input) 100] := by
        cases resp with
        | error em => simp [sendChat, hs, hm]
        | ok res =>
          by_cases hnr : isNullish res = true
          · simp [sendChat, hs, hm, hnr]
          · rw [Bool.not_eq_true] at hnr
            simp only [sendChat, hs, hm, hnr, Bool.false_eq_true, if_false]
            split <;> simp
      refine ⟨fun _ _ => hreq, ?_, ?_⟩
      · rintro (h | h)
        · exact absurd h (by simp [hs])
        · exact absurd h hm
      · intro q lim hmem
        rw [hreq] at hmem
        rcases List.mem_singleton.mp hmem with h
        injection h with hq hl
        exact ⟨hq ▸ hm, hl⟩

/-- C4 witness: a concrete submission and a concrete no-op. -/
theorem claim_C4_witness :
    reqsOf (sendChat "  hello?  " (.ok (JSVal.obj (.cons "answer" (.str "hi") .nil)))
      sampleState).2 = [.ask "hello?" 100] ∧
    sendChat "   " (.ok (JSVal.obj (.cons "answer" (.str "hi") .nil))) sampleState =
      (sampleState, []) :=
  ⟨(claim_C4 "  hello?  " (.ok (JSVal.obj (.cons "answer" (.str "hi") .nil)))
      sampleState).1 rfl (by decide),
   (claim_C4 "   " (.ok (JSVal.obj (.cons "answer" (.str "hi") .nil)))
      sampleState).2.1 (Or.inr (by decide))⟩

/-- C5: a user-confirmed reset whose `POST /reset` reply carries
`deleted = n` reports exactly `n` cleared emails with singular/plural
wording for positive `n`, and the generic cleared message when `n` is
zero or the field is absent; both success paths then invoke
`loadEmails`.  On failure an error-styled chat message is shown instead,
no reload happens, and the pending-acknowledgement flag is cleared. -/
theorem claim_C5 (resp : Except String JSVal) (s : ClientState)
    (h : s.resetting = false) :
    (∀ res n, resp = .ok res → jsGet res "deleted" = .num n → 0 < n →
      msgsOf (resetInbox true resp s).2 =
        [addMessage "assistant"
          ("Cleared " ++ toString n ++ " stored email" ++ (if n = 1 then "" else "s") ++
            ". I'll reanalyze now.") {}] ∧
      loadsOf (resetInbox true resp s).2 = 1) ∧
    (∀ res, resp = .ok res → isNullish res = false →
      (jsGet res "deleted" = .num 0 ∨ jsGet res "deleted" = .undefined) →
      msgsOf (resetInbox true resp s).2 =
        [addMessage "assistant" "I cleared the stored emails. I'll reanalyze your inbox now."
          {}] ∧
      loadsOf (resetInbox true resp s).2 = 1) ∧
    (∀ em, resp = .error em →
      msgsOf (resetInbox true resp s).2 =
        [addMessage "assistant" ("Sorry, I couldn't reset the inbox: " ++ em)
          { error := true }] ∧
      (resetInbox true resp s).1.awaitingResetAck = false ∧
      loadsOf (resetInbox true resp s).2 = 0) := by
  refine ⟨?_, ?_, ?_⟩
  · rintro res n rfl hdel hpos
    have hnr : isNullish res = false := by
      cases res with
      | null => exact absurd hdel (by simp [jsGet])
      | undefined => exact absurd hdel (by simp [jsGet])
      | bool b => rfl
      | num m => rfl
      | nan => rfl
      | str t => rfl
      | arr a => rfl
      | obj o => rfl
    have hmsg : resetSuccessText (toNumber (nullishD (jsGet res "deleted") (.num 0))) =
        "Cleared " ++ toString n ++ " stored email" ++ (if n = 1 then "" else "s") ++
          ". I'll reanalyze now." := by
      rw [hdel]
      rw [show toNumber (nullishD (JSVal.num n) (.num 0)) = JSVal.num n from rfl]
      unfold resetSuccessText
      have htru : jsTruthy (JSVal.num n) = true := by
        simp only [jsTruthy, decide_eq_true_eq]
        exact hpos.ne'
      rw [if_pos htru]
      simp only [jsToString, eqNumOne, decide_eq_true_eq]
    constructor
    · simp only [resetInbox, h, Bool.false_eq_true, if_false, hnr, hmsg]
      simp
    · simp [resetInbox, h, hnr]
  · rintro res rfl hnr hdel
    have hmsg : resetSuccessText (toNumber (nullishD (jsGet res "deleted") (.num 0))) =
        "I cleared the stored emails. I'll reanalyze your inbox now." := by
      rcases hdel with hdel | hdel <;> rw [hdel] <;> rfl
    constructor
    · simp only [resetInbox, h, Bool.false_eq_true, if_false, hnr, hmsg]
      simp
    · simp [resetInbox, h, hnr]
  · rintro em rfl
    refine ⟨?_, ?_, ?_⟩ <;> simp [resetInbox, h]

/-- C5 witness: concrete confirmed resets with `deleted = 1`,
`deleted = 0`, and a failed request. -/
theorem claim_C5_witness :
    msgsOf (resetInbox true (.ok (JSVal.obj (.cons "deleted" (.num 1) .nil)))
      sampleState).2 =
      [addMessage "assistant"
        ("Cleared " ++ toString (1 : Int) ++ " stored email" ++
          (if (1 : Int) = 1 then "" else "s") ++ ". I'll reanalyze now.") {}] ∧
    msgsOf (resetInbox true (.ok (JSVal.obj (.cons "deleted" (.num 0) .nil)))
      sampleState).2 =
      [addMessage "assistant" "I cleared the stored emails. I'll reanalyze your inbox now."
        {}] ∧
    (resetInbox true (.error "HTTP 500") sampleState).1.awaitingResetAck = false :=
  ⟨((claim_C5 (.ok (JSVal.obj (.cons "deleted" (.num 1) .nil))) sampleState rfl).1
      (JSVal.obj (.cons "deleted" (.num 1) .nil)) 1 rfl rfl (by decide)).1,
   ((claim_C5 (.ok (JSVal.obj (.cons "deleted" (.num 0) .nil))) sampleState rfl).2.1
      (JSVal.obj (.cons "deleted" (.num 0) .nil)) rfl rfl (Or.inl rfl)).1,
   ((claim_C5 (.error "HTTP 500") sampleState rfl).2.2 "HTTP 500" rfl).2.1⟩

/-- C9: reentrancy guards — a `sendChat` call while `sending` is set, and
a `resetInbox` call while `resetting` is set, are complete no-ops; on
every completion path of a started call the corresponding flag is back
to `false` and the button re-enabled, for success and failure alike. -/
theorem claim_C9 (input : String) (resp : Except String JSVal) (confirmed : Bool)
    (s : ClientState) :
    (s.sending = true → sendChat input resp s = (s, [])) ∧
    (s.resetting = true → resetInbox confirmed resp s = (s, [])) ∧
    (s.sending = false → (sendChat input resp s).1.sending = false ∧
      (jsTrim input ≠ "" → (sendChat input resp s).1.sendDisabled = false)) ∧
    (s.resetting = false → (resetInbox confirmed resp s).1.resetting = false ∧
      (confirmed = true → (resetInbox confirmed resp s).1.resetDisabled = false)) := by
  refine ⟨?_, ?_, ?_, ?_⟩
  · intro hs
    simp [sendChat, hs]
  · intro hr
    simp [resetInbox, hr]
  · intro hs
    by_cases hm : jsTrim input = ""
    · rw [show sendChat input resp s = (s, []) from by simp [sendChat, hs, hm]]
      exact ⟨hs, fun hne => absurd hm hne⟩
    · have hdone : (sendChat input resp s).1 =
          { s with sending := false, sendDisabled := false } := by
        cases resp with
        | error em => simp [sendChat, hs, hm]
        | ok res =>
          by_cases hnr : isNullish res = true
          · simp [sendChat, hs, hm, hnr]
          · rw [Bool.not_eq_true] at hnr
            simp only [sendChat, hs, hm, hnr, Bool.false_eq_true, if_false]
            split <;> simp
      rw [hdone]
      exact ⟨rfl, fun _ => rfl⟩
  · intro hr
    by_cases hc : confirmed = true
    · have hdone : (resetInbox confirmed resp s).1.resetting = false ∧
          (resetInbox confirmed resp s).1.resetDisabled = false := by
        cases resp with
        | error em => simp [resetInbox, hr, hc]
        | ok res =>
          by_cases hnr : isNullish res = true
          · simp [resetInbox, hr, hc, hnr]
          · rw [Bool.not_eq_true] at hnr
            simp [resetInbox, hr, hc, hnr]
      exact ⟨hdone.1, fun _ => hdone.2⟩
    · rw [Bool.not_eq_true] at hc
      rw [show resetInbox confirmed resp s = (s, []) from by simp [resetInbox, hr, hc]]
      exact ⟨hr, fun h => absurd h (by simp [hc])⟩

/-- C9 witness: a concrete in-flight no-op and a concrete completed call
restoring the flags. -/
theorem claim_C9_witness :
    sendChat "hi" (.error "boom") { sampleState with sending := true } =
      ({ sampleState with sending := true }, []) ∧
    (sendChat "hi" (.error "boom") sampleState).1.sending = false ∧
    (resetInbox true (.error "boom") sampleState).1.resetting = false :=
  ⟨(claim_C9 "hi" (.error "boom") true { sampleState with sending := true }).1 rfl,
   ((claim_C9 "hi" (.error "boom") true sampleState).2.2.1 rfl).1,
   ((claim_C9 "hi" (.error "boom") true sampleState).2.2.2 rfl).1⟩

/-- C6: `loadEmails` requests exactly
`GET /emails?limit=50&actionable_only=true`; a non-empty result renders
one card per returned record in the server's order (the rendered list is
the elementwise image of the response, so no reordering happens); an
empty result renders the all-caught-up placeholder; a failed request
adds an error chat message and leaves the email list empty. -/
theorem claim_C6 (result : Except String (List JSVal)) :
    reqsOf (loadEmails result).2 = [.get "/emails?limit=50&actionable_only=true"] ∧
    (∀ es, result = .ok es → es ≠ [] →
      (loadEmails result).1 = .cards (es.map renderEmailCard) ∧
      (es.map renderEmailCard).length = es.length) ∧
    (result = .ok [] →
      (loadEmails result).1 =
        .allCaughtUp "You're all caught up. No replies are needed right now.") ∧
    (∀ em, result = .error em →
      (loadEmails result).1 = .blank ∧
      msgsOf (loadEmails result).2 =
        [addMessage "assistant"
          "I couldn't load your actionable emails. Please try refreshing."
          { error := true }]) := by
  refine ⟨?_, ?_, ?_, ?_⟩
  · cases result with
    | error em => simp [loadEmails, emailsQuery]
    | ok es =>
      by_cases he : es = []
      · simp [loadEmails, he, emailsQuery]
      · simp [loadEmails, he, emailsQuery]
  · rintro es rfl hne
    simp [loadEmails, hne, List.length_map]
  · rintro rfl
    rfl
  · rintro em rfl
    exact ⟨rfl, by simp [loadEmails]⟩

/-- C6 witness: a concrete two-record response, the empty response, and a
failure. -/
theorem claim_C6_witness :
    reqsOf (loadEmails (.ok [JSVal.obj (.cons "subject" (.str "A") .nil),
      JSVal.obj (.cons "subject" (.str "B") .nil)])).2 =
      [.get "/emails?limit=50&actionable_only=true"] ∧
    (loadEmails (.ok [JSVal.obj (.cons "subject" (.str "A") .nil),
      JSVal.obj (.cons "subject" (.str "B") .nil)])).1 =
      .cards ([JSVal.obj (.cons "subject" (.str "A") .nil),
        JSVal.obj (.cons "subject" (.str "B") .nil)].map renderEmailCard) ∧
    (loadEmails (.ok [])).1 =
      .allCaughtUp "You're all caught up. No replies are needed right now." ∧
    (loadEmails (.error "HTTP 500")).1 = .blank :=
  ⟨(claim_C6 (.ok [JSVal.obj (.cons "subject" (.str "A") .nil),
      JSVal.obj (.cons "subject" (.str "B") .nil)])).1,
   ((claim_C6 (.ok [JSVal.obj (.cons "subject" (.str "A") .nil),
      JSVal.obj (.cons "subject" (.str "B") .nil)])).2.1
      [JSVal.obj (.cons "subject" (.str "A") .nil),
        JSVal.obj (.cons "subject" (.str "B") .nil)] rfl (by decide)).1,
   (claim_C6 (.ok [])).2.2.1 rfl,
   ((claim_C6 (.error "HTTP 500")).2.2.2 "HTTP 500" rfl).1⟩

/-- Along a trace of error events only, the number of lost-connection
chat lines is zero when the flag is already set, and at most one
otherwise. -/
theorem countLost_errors_le (env : NotifEnv) (s : ClientState) :
    ∀ (tr : List ConnEvent) (c : ConnState), (∀ e ∈ tr, e = ConnEvent.errored) →
      countText lostText (sseRun env (c, s) tr).2 ≤
        (if c.errorNotified then 0 else 1) := by
  intro tr
  induction tr with
  | nil =>
    intro c _
    have : countText lostText ([] : List Eff) = 0 := rfl
    simp only [sseRun, this]
    split <;> omega
  | cons e es ih =>
    intro c hall
    have he : e = ConnEvent.errored := hall e (List.mem_cons_self e es)
    subst he
    have hrest : ∀ x ∈ es, x = ConnEvent.errored :=
      fun x hx => hall x (List.mem_cons_of_mem _ hx)
    by_cases hc : c.errorNotified
    · have hstep : sseStep env (c, s) ConnEvent.errored = ((c, s), []) := by
        simp [sseStep, connError, hc]
      simp only [sseRun, hstep, List.nil_append]
      have := ih c hrest
      rw [if_pos hc] at this
      simpa [hc] using this
    · have hstep : sseStep env (c, s) ConnEvent.errored =
          (({ c with errorNotified := true }, s),
           [Eff.msg (addMessage "assistant" lostText { error := true })]) := by
        simp [sseStep, connError, hc]
      simp only [sseRun, hstep]
      rw [countText_append]
      have h1 : countText lostText
          [Eff.msg (addMessage "assistant" lostText { error := true })] = 1 := by decide
      have h2 := ih { c with errorNotified := true } hrest
      rw [if_neg hc]
      simp only [] at h2
      norm_num at h2
      omega

/-- Along a trace of open and error events, the number of
connected-announcement chat lines is zero once announced and at most one
otherwise. -/
theorem countAnnounce_le (env : NotifEnv) (s : ClientState) :
    ∀ (tr : List ConnEvent) (c : ConnState),
      (∀ e ∈ tr, e = ConnEvent.opened ∨ e = ConnEvent.errored) →
      countText connectedText (sseRun env (c, s) tr).2 ≤
        (if c.announced then 0 else 1) := by
  intro tr
  induction tr with
  | nil =>
    intro c _
    have : countText connectedText ([] : List Eff) = 0 := rfl
    simp only [sseRun, this]
    split <;> omega
  | cons e es ih =>
    intro c hall
    have hrest : ∀ x ∈ es, x = ConnEvent.opened ∨ x = ConnEvent.errored :=
      fun x hx => hall x (List.mem_cons_of_mem _ hx)
    rcases hall e (List.mem_cons_self e es) with he | he <;> subst he
    · by_cases hc : c.announced
      · have hstep : sseStep env (c, s) ConnEvent.opened =
            (({ c with errorNotified := false }, s), []) := by
          simp [sseStep, connOpen, hc]
        simp only [sseRun, hstep, List.nil_append]
        have := ih { c with errorNotified := false } hrest
        rw [if_pos hc] at this ⊢
        simpa [hc] using this
      · have hstep : sseStep env (c, s) ConnEvent.opened =
            (({ announced := true, errorNotified := false }, s),
             [Eff.msg (addMessage "assistant" connectedText {})]) := by
          simp [sseStep, connOpen, hc]
        simp only [sseRun, hstep]
        rw [countText_append]
        have h1 : countText connectedText
            [Eff.msg (addMessage "assistant" connectedText {})] = 1 := by decide
        have h2 := ih { announced := true, errorNotified := false } hrest
        norm_num at h2
        rw [if_neg hc]
        omega
    · by_cases hc : c.errorNotified
      · have hstep : sseStep env (c, s) ConnEvent.errored = ((c, s), []) := by
          simp [sseStep, connError, hc]
        simp only [sseRun, hstep, List.nil_append]
        exact ih c hrest
      · have hstep : sseStep env (c, s) ConnEvent.errored =
            (({ c with errorNotified := true }, s),
             [Eff.msg (addMessage "assistant" lostText { error := true })]) := by
          simp [sseStep, connError, hc]
        simp only [sseRun, hstep]
        rw [countText_append]
        have h1 : countText connectedText
            [Eff.msg (addMessage "assistant" lostText { error := true })] = 0 := by decide
        have h2 := ih { c with errorNotified := true } hrest
        have hsame : ({ c with errorNotified := true } : ConnState).announced =
            c.announced := rfl
        rw [hsame] at h2
        omega

/-- C7: between successful opens, at most one lost-connection chat line
is added no matter how many error events fire (the flag is set on the
first error and only cleared by `onopen`); and over any open/error trace
of one `connectSSE` call the connected announcement appears at most
once. -/
theorem claim_C7 (env : NotifEnv) (c : ConnState) (s : ClientState) :
    (∀ tr : List ConnEvent, (∀ e ∈ tr, e = ConnEvent.errored) →
      countText lostText (sseRun env (c, s) tr).2 ≤ 1) ∧
    (connOpen c).1.errorNotified = false ∧
    (∀ tr : List ConnEvent,
      (∀ e ∈ tr, e = ConnEvent.opened ∨ e = ConnEvent.errored) →
      countText connectedText (sseRun env (initConnState, s) tr).2 ≤ 1) := by
  refine ⟨?_, ?_, ?_⟩
  · intro tr hall
    have := countLost_errors_le env s tr c hall
    split at this <;> omega
  · by_cases hc : c.announced
    · simp [connOpen, hc]
    · simp [connOpen, hc]
  · intro tr hall
    have := countAnnounce_le env s tr initConnState hall
    simpa [initConnState] using this

/-- C7 witness: a concrete burst of three error events produces at most
one lost-connection line, and a concrete reopen-heavy trace at most one
announcement. -/
theorem claim_C7_witness :
    countText lostText (sseRun ⟨true, "granted"⟩ (initConnState, sampleState)
      [ConnEvent.errored, ConnEvent.errored, ConnEvent.errored]).2 ≤ 1 ∧
    countText connectedText (sseRun ⟨true, "granted"⟩ (initConnState, sampleState)
      [ConnEvent.opened, ConnEvent.errored, ConnEvent.opened, ConnEvent.opened]).2 ≤ 1 :=
  ⟨(claim_C7 ⟨true, "granted"⟩ initConnState sampleState).1
      [ConnEvent.errored, ConnEvent.errored, ConnEvent.errored]
      (by
        intro e he
        simp only [List.mem_cons, List.not_mem_nil, or_false] at he
        rcases he with rfl | rfl | rfl <;> rfl),
   (claim_C7 ⟨true, "granted"⟩ initConnState sampleState).2.2
      [ConnEvent.opened, ConnEvent.errored, ConnEvent.opened, ConnEvent.opened]
      (by
        intro e he
        simp only [List.mem_cons, List.not_mem_nil, or_false] at he
        rcases he with rfl | rfl | rfl | rfl
        · exact Or.inl rfl
        · exact Or.inr rfl
        · exact Or.inl rfl
        · exact Or.inl rfl)⟩

/-- C1 (amended): the open handler of `connectSSE` does not invoke
`loadEmails` and issues no request — it only clears the error-notified
flag — and the connection announcement is added at most once over any
open/error trace of a `connectSSE` call.  The client re-derives email
state via `loadEmails` at page startup and on each handled push event:
a `reset` event and a handled actionable `important_email` event each
invoke `loadEmails` exactly once; reconnection alone never does. -/
theorem claim_C1 (c : ConnState) (env : NotifEnv) (data : JSVal) (s : ClientState) :
    loadsOf (connOpen c).2 = 0 ∧
    reqsOf (connOpen c).2 = [] ∧
    (connOpen c).1.errorNotified = false ∧
    (∀ tr : List ConnEvent,
      (∀ e ∈ tr, e = ConnEvent.opened ∨ e = ConnEvent.errored) →
      countText connectedText (sseRun env (initConnState, s) tr).2 ≤ 1) ∧
    loadsOf pageInit = 1 ∧
    (jsGet data "type" = .str "reset" → loadsOf (onMessage env (.ok data) s).2 = 1) ∧
    (isTag (jsGet data "type") "important_email" = true →
      jsTruthy (jsGet data "actionable") = true →
      (jsTruthy (jsGet data "assistant_message") &&
        !(isStr (jsGet data "assistant_message"))) = false →
      loadsOf (onMessage env (.ok data) s).2 = 1) := by
  have hopen : loadsOf (connOpen c).2 = 0 ∧ reqsOf (connOpen c).2 = [] ∧
      (connOpen c).1.errorNotified = false := by
    by_cases h : c.announced
    · simp [connOpen, h]
    · simp [connOpen, h]
  refine ⟨hopen.1, hopen.2.1, hopen.2.2, ?_, by decide, ?_, ?_⟩
  · intro tr hall
    have := countAnnounce_le env s tr initConnState hall
    simpa [initConnState] using this
  · intro htag
    have hnn : isNullish data = false := by
      cases data with
      | null => exact absurd htag (by simp [jsGet])
      | undefined => exact absurd htag (by simp [jsGet])
      | bool b => rfl
      | num n => rfl
      | nan => rfl
      | str t => rfl
      | arr a => rfl
      | obj o => rfl
    have h1 : isTag (JSVal.str "reset") "important_email" = false := by decide
    have h2 : isTag (JSVal.str "reset") "auth_required" = false := by decide
    have h3 : isTag (JSVal.str "reset") "error" = false := by decide
    have h4 : isTag (JSVal.str "reset") "reset" = true := by decide
    simp only [onMessage, hnn, Bool.false_eq_true, if_false, handleData, htag, h1, h2, h3, h4,
      Bool.false_and, if_true]
    by_cases hack : s.awaitingResetAck
    · simp [hack]
    · simp [hack]
  · intro ht ha ham
    have hnn : isNullish data = false := by
      cases data with
      | null => exact absurd ht (by decide)
      | undefined => exact absurd ht (by decide)
      | bool b => rfl
      | num n => rfl
      | nan => rfl
      | str t => rfl
      | arr a => rfl
      | obj o => rfl
    have hcond : (isTag (jsGet data "type") "important_email" &&
        jsTruthy (jsGet data "actionable")) = true := by
      rw [ht, ha]
      rfl
    simp only [onMessage, hnn, Bool.false_eq_true, if_false]
    by_cases henv : (env.notifSupported && decide (env.notifPermission = "granted")) = true
    · simp [handleData, hcond, ham, henv]
    · rw [Bool.not_eq_true] at henv
      simp [handleData, hcond, ham, henv]

/-- C1 counterexample: on a (re)connection — the very first firing of the
open handler of a fresh `connectSSE` call — no `loadEmails` invocation
and no `GET /emails` request is produced, contrary to the claim. -/
theorem claim_C1_counterexample :
    loadsOf (connOpen initConnState).2 = 0 ∧ reqsOf (connOpen initConnState).2 = [] := by
  decide

/-- C1 witness: concrete instantiations of the amended claim — the
startup load, one load for a `reset` event, one load for a handled
actionable `important_email` event, and the announcement bound on a
concrete trace with two opens. -/
theorem claim_C1_witness :
    loadsOf pageInit = 1 ∧
    loadsOf (onMessage ⟨true, "granted"⟩
      (.ok (JSVal.obj (.cons "type" (.str "reset") .nil))) sampleState).2 = 1 ∧
    loadsOf (onMessage ⟨true, "granted"⟩
      (.ok (JSVal.obj (.cons "type" (.str "important_email")
        (.cons "actionable" (.bool true) (.cons "sender" (.str "Ann") .nil)))))
      sampleState).2 = 1 ∧
    countText connectedText (sseRun ⟨true, "granted"⟩ (initConnState, sampleState)
      [ConnEvent.opened, ConnEvent.opened]).2 ≤ 1 :=
  ⟨(claim_C1 initConnState ⟨true, "granted"⟩ (JSVal.obj (.cons "type" (.str "reset") .nil))
      sampleState).2.2.2.2.1,
   (claim_C1 initConnState ⟨true, "granted"⟩ (JSVal.obj (.cons "type" (.str "reset") .nil))
      sampleState).2.2.2.2.2.1 rfl,
   (claim_C1 initConnState ⟨true, "granted"⟩
      (JSVal.obj (.cons "type" (.str "important_email")
        (.cons "actionable" (.bool true) (.cons "sender" (.str "Ann") .nil))))
      sampleState).2.2.2.2.2.2 rfl rfl rfl,
   (claim_C1 initConnState ⟨true, "granted"⟩ (JSVal.obj (.cons "type" (.str "reset") .nil))
      sampleState).2.2.2.1 [ConnEvent.opened, ConnEvent.opened]
      (by
        intro e he
        simp only [List.mem_cons, List.not_mem_nil, or_false] at he
        rcases he with rfl | rfl <;> exact Or.inl rfl)⟩

end InboxBuddy
